import Mathlib

/-!
Verification of the composition layer of a single-threaded asynchronous
runtime (`src/lib.rs`): a `Builder` assembles a Reactor, wraps it with a
Timer seeded with a configurable `Clock`, lets the caller interpose a
custom `Park` layer, and puts a `CurrentThread` executor on top, returning
the `Runtime` façade together with the top-level wake token.

The builder itself (`Builder::new`, `Builder::clock`, `Builder::build`,
`Builder::build_with_park`) is embedded directly from `src/lib.rs`.
External collaborators (the tokio Reactor/Timer/Clock types, the `Park`
trait) and the `Runtime` façade (whose module is not among the provided
sources) are modelled from the specification at their interface boundary.
-/

namespace CTRuntime

/-- Clock (tokio_timer::clock::Clock): an opaque monotonic time source,
cheap to duplicate; all duplicates read the same underlying source, so a
clock is identified by that source. -/
structure Clock where
  source : Nat
deriving DecidableEq, Repr

/-- Clock::new — the default real monotonic time source. -/
def Clock.new : Clock := ⟨0⟩

/-- Clock::clone — a clone reads the same underlying time source, so a
cloned clock is the same value. -/
def Clock.clone (c : Clock) : Clock := c

/-- io::Error as it crosses the assembly boundary: an opaque error value,
compared only for identity (the assembly code never inspects it). -/
structure IoError where
  code : Nat
deriving DecidableEq, Repr

/-- Reactor (tokio::reactor::Reactor): the bottom event source, owning an
OS polling handle; identified by that handle. -/
structure Reactor where
  id : Nat
deriving DecidableEq, Repr

/-- ReactorHandle: back-reference to a reactor, usable to register I/O
interest. -/
structure ReactorHandle where
  reactorId : Nat
deriving DecidableEq, Repr

/-- Reactor::handle — returns a back-reference to this reactor. -/
def Reactor.handle (r : Reactor) : ReactorHandle := ⟨r.id⟩

/-- OS environment for reactor creation: Reactor::new allocates a fresh OS
polling handle and is fallible. `nextReactorId` numbers the handles the OS
hands out; `reactorFailure` is the error the OS would currently answer an
allocation request with, if any. -/
structure World where
  nextReactorId : Nat
  reactorFailure : Option IoError
deriving DecidableEq, Repr

/-- Reactor::new — asks the OS for a fresh polling handle; fails exactly
when the environment fails the allocation, propagating that io::Error. -/
def Reactor.new (w : World) : Except IoError (Reactor × World) :=
  match w.reactorFailure with
  | some e => .error e
  | none => .ok (⟨w.nextReactorId⟩, { w with nextReactorId := w.nextReactorId + 1 })

/-- Timer (tokio_timer::timer::Timer): wraps an inner event source and
holds the clock it was seeded with. -/
structure Timer (T : Type) where
  inner : T
  clock : Clock

/-- Timer::new_with_now — wraps `inner`, seeded with the given clock. -/
def Timer.new_with_now {T : Type} (inner : T) (clock : Clock) : Timer T :=
  ⟨inner, clock⟩

/-- TimerHandle: back-reference to a timer, usable to register or cancel
deadlines. -/
structure TimerHandle (T : Type) where
  of : Timer T

/-- Timer::handle — returns a back-reference to this timer. -/
def Timer.handle {T : Type} (t : Timer T) : TimerHandle T := ⟨t⟩

/-- Park trait (tokio_executor::park::Park): a blockable event source `U`
with an associated thread-safe wake-token type `V` (`Park::Unpark`), and
the `unpark` method producing that token. -/
class Park (U : Type) (V : outParam Type) where
  unpark : U → V

/-- Wake token of the bare reactor layer. -/
structure ReactorUnpark where
  reactorId : Nat
deriving DecidableEq, Repr

instance : Park Reactor ReactorUnpark := ⟨fun r => ⟨r.id⟩⟩

/-- Wake token of a timer layer: wraps the wake token of the inner
source. -/
structure TimerUnpark (V : Type) where
  inner : V

instance {T V : Type} [Park T V] : Park (Timer T) (TimerUnpark V) :=
  ⟨fun t => ⟨Park.unpark t.inner⟩⟩

/-- CurrentThread executor (tokio::executor::current_thread::CurrentThread):
a single-threaded cooperative scheduler sitting on top of a park-capable
source. -/
structure CurrentThread (U : Type) where
  park : U

/-- CurrentThread::new_with_park — puts the executor on top of `park`. -/
def CurrentThread.new_with_park {U : Type} (park : U) : CurrentThread U :=
  ⟨park⟩

/-- Modelled from the spec: the `Runtime` façade lives in `src/runtime.rs`,
which is not among the provided sources; per the data model it owns the
Reactor handle, the Timer handle, the Clock and the Executor for its whole
lifetime, and `Runtime::new2` is its constructor taking them in exactly
that order (call site: `src/lib.rs` line 96). -/
structure Runtime (U : Type) where
  reactor_handle : ReactorHandle
  timer_handle : TimerHandle Reactor
  clock : Clock
  executor : CurrentThread U

/-- Modelled from the spec: `Runtime::new2` packs the four owned components
into the façade. -/
def Runtime.new2 {U : Type} (reactor_handle : ReactorHandle)
    (timer_handle : TimerHandle Reactor) (clock : Clock)
    (executor : CurrentThread U) : Runtime U :=
  ⟨reactor_handle, timer_handle, clock, executor⟩

/-- Builder (src/lib.rs lines 46-50): the only configuration value is the
clock to use. -/
structure Builder where
  clock : Clock

/-- Builder::new (src/lib.rs lines 57-61): default configuration, with the
default real monotonic clock. -/
def Builder.new : Builder :=
  { clock := Clock.new }

/-- Builder::clock (src/lib.rs lines 64-67): stores the given clock and
returns the builder itself for chaining. Named `setClock` here because the
field keeps the name `clock`. -/
def Builder.setClock (self : Builder) (clock : Clock) : Builder :=
  { self with clock := clock }

/-- Builder::build_with_park (src/lib.rs lines 75-99), with the mutable
receiver and the OS environment threaded explicitly: create a Reactor
(propagating its failure with `?`), take its handle, put a Timer seeded
with a clone of the configured clock on top, take the timer's handle,
apply the caller's `new_park` transformation to the timer, obtain the
unpark token of the result, put a CurrentThread executor on top, and pack
the handles, a clone of the clock and the executor into the Runtime.
Returns the result together with the builder and the world after the
call. -/
def Builder.build_with_park {U V : Type} [Park U V] (self : Builder)
    (new_park : Timer Reactor → U) (w : World) :
    Except IoError (Runtime U × V) × Builder × World :=
  match Reactor.new w with
  | .error e => (.error e, self, w)
  | .ok (reactor, w1) =>
    let reactor_handle := reactor.handle
    let timer := Timer.new_with_now reactor self.clock.clone
    let timer_handle := timer.handle
    let park := new_park timer
    let unpark := Park.unpark park
    let executor := CurrentThread.new_with_park park
    let runtime := Runtime.new2 reactor_handle timer_handle self.clock.clone executor
    (.ok (runtime, unpark), self, w1)

/-- Builder::build (src/lib.rs lines 70-72): build_with_park with the
identity transformation, discarding the wake token. -/
def Builder.build (self : Builder) (w : World) :
    Except IoError (Runtime (Timer Reactor)) × Builder × World :=
  match self.build_with_park (fun park => park) w with
  | (res, self1, w1) => (res.map (fun rt => rt.1), self1, w1)

/-! ### Timer-layer dynamics

The Timer implementation is an external collaborator (tokio_timer), so its
`block` algorithm is modelled from the specification of the Timer layer:
compute the effective wait as the nearer of the caller's bound and the
earliest pending deadline, block the inner source, then fire every
now-expired entry in ascending-deadline order, ties in insertion order.
Instants and durations are modelled as natural numbers. -/

/-- Modelled from the spec: one entry of the Timer's pending set — a
monotonically increasing registration id paired with an absolute deadline
(the entry's waker is identified by the registration id). -/
structure TimerEntry where
  regId : Nat
  deadline : Nat
deriving DecidableEq, Repr

/-- Minimum deadline of a nonempty batch of entries, written head/tail so
that the pending set's minimum is total on nonempty lists. -/
def minDeadline (e : TimerEntry) : List TimerEntry → Nat
  | [] => e.deadline
  | x :: rest => min e.deadline (minDeadline x rest)

/-- Modelled from the spec: the earliest deadline among the pending
entries, if any. -/
def earliestDeadline : List TimerEntry → Option Nat
  | [] => none
  | e :: rest => some (minDeadline e rest)

/-- Modelled from the spec: step 1 of the Timer's block — the effective
wait is the minimum of the caller's `maxWait` and the time remaining until
the earliest pending deadline at the current clock reading; an absent
deadline contributes no bound. -/
def effectiveWait (now : Nat) (pending : List TimerEntry)
    (maxWait : Option Nat) : Option Nat :=
  match earliestDeadline pending with
  | none => maxWait
  | some d =>
    match maxWait with
    | none => some (d - now)
    | some m => some (min m (d - now))

/-- Firing order of timer entries: ascending deadline, ties broken by
registration id (registration ids increase with insertion, so this is
insertion order). -/
def fireLe (a b : TimerEntry) : Prop :=
  a.deadline < b.deadline ∨ (a.deadline = b.deadline ∧ a.regId ≤ b.regId)

instance : DecidableRel fireLe := fun a b => by
  unfold fireLe; infer_instance

instance : IsTotal TimerEntry fireLe :=
  ⟨fun a b => by unfold fireLe; omega⟩

instance : IsTrans TimerEntry fireLe :=
  ⟨fun a b c ha hb => by unfold fireLe at *; omega⟩

/-- Modelled from the spec: step 3 of the Timer's block — on return from
the inner block, re-read the clock; fire every pending entry whose
deadline is at or before `now`, in ascending-deadline order with ties in
insertion order, removing each from the pending set. Returns the firing
sequence and the remaining pending set. -/
def fireExpired (pending : List TimerEntry) (now : Nat) :
    List TimerEntry × List TimerEntry :=
  (List.insertionSort fireLe (pending.filter (fun e => decide (e.deadline ≤ now))),
   pending.filter (fun e => decide (now < e.deadline)))

/-! ### Wake-token semantics

The wake token is specified as a sticky pending flag: invoking it at any
time makes the next or currently pending block call return promptly, and
repeated invocations coalesce. -/

/-- Modelled from the spec: the state behind a wake token — a sticky
pending flag, set by invoking the token and cleared by the block call that
observes it. -/
structure SourceState where
  wakePending : Bool
deriving DecidableEq, Repr

/-- Modelled from the spec: invoking a WakeToken sets the sticky pending
flag (a level, never an edge). -/
def WakeToken.invoke (_s : SourceState) : SourceState :=
  ⟨true⟩

/-- Modelled from the spec: a block call on a source. If the sticky flag
is pending the call returns immediately (zero wait) and clears the flag.
Otherwise the thread sleeps; `wakeAt` is the arrival offset, measured from
the start of the call, of a wake landing inside this call's window, if
any: such a wake ends the call at that offset and clears the flag, and
otherwise the call returns when `maxWait` elapses. With no bound and no
wake the call never returns (`none`). Returns the time waited and the
state after the call. -/
def block (s : SourceState) (maxWait : Option Nat) (wakeAt : Option Nat) :
    Option (Nat × SourceState) :=
  if s.wakePending then
    some (0, ⟨false⟩)
  else
    match wakeAt, maxWait with
    | some t, some m => if t < m then some (t, ⟨false⟩) else some (m, s)
    | some t, none => some (t, ⟨false⟩)
    | none, some m => some (m, s)
    | none, none => none

/-! ### Helper lemmas -/

/-- The minimum deadline of a nonempty batch is at or below every member's
deadline. -/
theorem minDeadline_le (e : TimerEntry) (rest : List TimerEntry) :
    ∀ f ∈ e :: rest, minDeadline e rest ≤ f.deadline := by
  induction rest generalizing e with
  | nil =>
    intro f hf
    rcases List.mem_singleton.mp hf with rfl
    exact Nat.le_refl _
  | cons x rest ih =>
    intro f hf
    rcases List.mem_cons.mp hf with rfl | hf
    · exact Nat.min_le_left _ _
    · exact Nat.le_trans (Nat.min_le_right _ _) (ih x f hf)

/-- Inversion of a successful assembly: the reactor creation succeeded and
the runtime and token are exactly the assembled stack over that reactor. -/
theorem build_with_park_ok_inv {U V : Type} [Park U V] {self : Builder}
    {np : Timer Reactor → U} {w : World} {rt : Runtime U} {tok : V}
    (h : (Builder.build_with_park self np w).1 = .ok (rt, tok)) :
    ∃ r w1, Reactor.new w = .ok (r, w1) ∧
      rt = Runtime.new2 r.handle (Timer.new_with_now r self.clock.clone).handle
        self.clock.clone
        (CurrentThread.new_with_park (np (Timer.new_with_now r self.clock.clone))) ∧
      tok = Park.unpark (np (Timer.new_with_now r self.clock.clone)) := by
  unfold Builder.build_with_park at h
  cases hr : Reactor.new w with
  | error e => rw [hr] at h; simp at h
  | ok p =>
    obtain ⟨r, w1⟩ := p
    rw [hr] at h
    simp at h
    exact ⟨r, w1, rfl, h.1.symm, h.2.symm⟩

/-! ### Claim theorems -/

/-- C4: for every set of pending deadlines and every optional caller bound,
the Timer's block computes an effective wait equal to the minimum of
`maxWait` and the time remaining to the earliest pending deadline at the
instant of the call (an absent deadline contributing no bound), and the
wait bound never exceeds the remaining time to the deadline of any entry
still pending. -/
theorem timer_effective_wait_no_oversleep (now : Nat)
    (pending : List TimerEntry) (mw : Option Nat) :
    (∀ d m, earliestDeadline pending = some d → mw = some m →
      effectiveWait now pending mw = some (min m (d - now))) ∧
    (∀ d, earliestDeadline pending = some d → mw = none →
      effectiveWait now pending mw = some (d - now)) ∧
    (earliestDeadline pending = none → effectiveWait now pending mw = mw) ∧
    (∀ e ∈ pending, ∀ wt, effectiveWait now pending mw = some wt →
      wt ≤ e.deadline - now) := by
  refine ⟨?_, ?_, ?_, ?_⟩
  · intro d m hd hm
    simp [effectiveWait, hd, hm]
  · intro d hd hm
    simp [effectiveWait, hd, hm]
  · intro hd
    simp [effectiveWait, hd]
  · intro e he wt hw
    cases pending with
    | nil => cases he
    | cons p rest =>
      have hmin : minDeadline p rest ≤ e.deadline := minDeadline_le p rest e he
      have hsub : minDeadline p rest - now ≤ e.deadline - now :=
        Nat.sub_le_sub_right hmin now
      cases mw with
      | none =>
        simp [effectiveWait, earliestDeadline] at hw
        omega
      | some m =>
        simp [effectiveWait, earliestDeadline] at hw
        have := Nat.min_le_right m (minDeadline p rest - now)
        omega

/-- Witness for C4 at a concrete instant, pending set and caller bound. -/
theorem timer_effective_wait_no_oversleep_witness :
    effectiveWait 5 [⟨0, 12⟩, ⟨1, 9⟩] (some 10) = some 4 ∧ (4 : Nat) ≤ 9 - 5 :=
  ⟨by decide,
   (timer_effective_wait_no_oversleep 5 [⟨0, 12⟩, ⟨1, 9⟩] (some 10)).2.2.2
     ⟨1, 9⟩ (by decide) 4 (by decide)⟩

/-- C5: a wake is a sticky level, never a missable edge — after any
positive number of token invocations the pending flag is set, the next
block call returns immediately (zero wait, not `maxWait`) and clears the
flag, the block call after that one waits the full bound again (N rapid
invocations coalesce into exactly one early return), and a wake arriving
during a block call ends it at the arrival offset, before `maxWait`
elapses. -/
theorem wake_token_no_missed_wake_and_coalescing (s0 : SourceState)
    (n m : Nat) (hn : 1 ≤ n) (hm : 0 < m) :
    (WakeToken.invoke^[n] s0).wakePending = true ∧
    block (WakeToken.invoke^[n] s0) (some m) none = some (0, ⟨false⟩) ∧
    (∀ s1 : SourceState,
      block (WakeToken.invoke^[n] s0) (some m) none = some (0, s1) →
      block s1 (some m) none = some (m, s1)) ∧
    (∀ t, t < m → ∀ s : SourceState, s.wakePending = false →
      block s (some m) (some t) = some (t, ⟨false⟩)) := by
  have hpend : WakeToken.invoke^[n] s0 = ⟨true⟩ := by
    obtain ⟨k, rfl⟩ : ∃ k, n = k + 1 := ⟨n - 1, by omega⟩
    rw [Function.iterate_succ_apply']
    rfl
  refine ⟨by rw [hpend], by rw [hpend]; rfl, ?_, ?_⟩
  · intro s1 h
    rw [hpend] at h
    simp [block] at h
    rw [← h]
    rfl
  · intro t ht s hs
    simp [block, hs, ht]

/-- Witness for C5: three rapid invocations before a block call with bound
five, and a wake arriving at offset two during a block call. -/
theorem wake_token_no_missed_wake_and_coalescing_witness :
    block (WakeToken.invoke^[3] ⟨false⟩) (some 5) none = some (0, ⟨false⟩) ∧
    block ⟨false⟩ (some 5) (some 2) = some (2, ⟨false⟩) :=
  ⟨(wake_token_no_missed_wake_and_coalescing ⟨false⟩ 3 5 (by decide) (by decide)).2.1,
   (wake_token_no_missed_wake_and_coalescing ⟨false⟩ 3 5 (by decide)
     (by decide)).2.2.2 2 (by decide) ⟨false⟩ rfl⟩

/-- C6: on each return from the inner block, the firing sequence is exactly
the pending entries whose deadline is at or before the re-read clock value,
in ascending-deadline order with ties in registration-id (insertion) order,
and the remaining pending set is exactly the entries whose deadline is
still in the future. -/
theorem timer_firing_order_and_removal (pending : List TimerEntry)
    (now : Nat) :
    List.Sorted fireLe (fireExpired pending now).1 ∧
    (∀ e, e ∈ (fireExpired pending now).1 ↔ e ∈ pending ∧ e.deadline ≤ now) ∧
    (∀ e, e ∈ (fireExpired pending now).2 ↔ e ∈ pending ∧ now < e.deadline) := by
  refine ⟨List.sorted_insertionSort fireLe _, ?_, ?_⟩
  · intro e
    simp [fireExpired, List.mem_filter]
  · intro e
    simp [fireExpired, List.mem_filter]

/-- C1: when reactor creation succeeds, build_with_park assembles the stack
bottom-up in exactly this order — the Reactor first, then a Timer wrapping
that very Reactor and seeded with the builder's configured clock, then the
caller's transformation applied to that Timer, then the CurrentThread
executor wrapping the transformation's result — and the Runtime receives
the reactor handle, the timer handle, the clock, and the executor. -/
theorem build_with_park_stack_order {U V : Type} [Park U V] (self : Builder)
    (new_park : Timer Reactor → U) (w : World) (r : Reactor) (w1 : World)
    (h : Reactor.new w = .ok (r, w1)) :
    Builder.build_with_park self new_park w =
      (.ok (Runtime.new2 r.handle
          (Timer.new_with_now r self.clock.clone).handle self.clock.clone
          (CurrentThread.new_with_park
            (new_park (Timer.new_with_now r self.clock.clone))),
        Park.unpark (new_park (Timer.new_with_now r self.clock.clone))),
       self, w1) := by
  simp [Builder.build_with_park, h]

/-- Witness for C1: assembly over a fresh environment with the identity
transformation. -/
theorem build_with_park_stack_order_witness :
    Reactor.new ⟨0, none⟩ = .ok (⟨0⟩, ⟨1, none⟩) ∧
    Builder.build_with_park (U := Timer Reactor) Builder.new (fun t => t)
        ⟨0, none⟩ =
      (.ok (Runtime.new2 (Reactor.handle ⟨0⟩)
          (Timer.new_with_now (⟨0⟩ : Reactor) Builder.new.clock.clone).handle
          Builder.new.clock.clone
          (CurrentThread.new_with_park
            (Timer.new_with_now (⟨0⟩ : Reactor) Builder.new.clock.clone)),
        Park.unpark (Timer.new_with_now (⟨0⟩ : Reactor) Builder.new.clock.clone)),
       Builder.new, ⟨1, none⟩) :=
  ⟨rfl,
   build_with_park_stack_order Builder.new (fun t => t) ⟨0, none⟩ ⟨0⟩ ⟨1, none⟩ rfl⟩

/-- C2: every successful build_with_park returns, alongside the Runtime,
the wake token obtained from the top-level parked source of the assembled
stack — the unpark of exactly the source the executor wraps. -/
theorem build_with_park_returns_outermost_unpark {U V : Type} [Park U V]
    (self : Builder) (new_park : Timer Reactor → U) (w : World)
    (rt : Runtime U) (tok : V)
    (h : (Builder.build_with_park self new_park w).1 = .ok (rt, tok)) :
    tok = Park.unpark rt.executor.park := by
  obtain ⟨r, w1, hr, hrt, htok⟩ := build_with_park_ok_inv h
  rw [hrt, htok]
  rfl

/-- Witness for C2: the token returned by a concrete successful assembly is
the unpark of the source held by the returned runtime's executor. -/
theorem build_with_park_returns_outermost_unpark_witness :
    (⟨⟨0⟩⟩ : TimerUnpark ReactorUnpark) =
      Park.unpark ((Runtime.new2 (Reactor.handle ⟨0⟩)
          (Timer.new_with_now (⟨0⟩ : Reactor) Clock.new).handle Clock.new
          (CurrentThread.new_with_park
            (Timer.new_with_now (⟨0⟩ : Reactor) Clock.new))).executor.park) :=
  build_with_park_returns_outermost_unpark Builder.new (fun t => t)
    ⟨0, none⟩ _ _ rfl

/-- C3: build and build_with_park fail exactly when reactor creation
fails, and the reactor's error value is propagated to the caller
unmodified; there is no other failure source in assembly. -/
theorem build_error_iff_reactor_error {U V : Type} [Park U V]
    (self : Builder) (new_park : Timer Reactor → U) (w : World) :
    (∀ e, (Builder.build_with_park self new_park w).1 = .error e ↔
      Reactor.new w = .error e) ∧
    (∀ e, (Builder.build self w).1 = .error e ↔ Reactor.new w = .error e) := by
  obtain ⟨nid, fail⟩ := w
  cases fail <;>
    simp [Builder.build, Builder.build_with_park, Reactor.new, Except.map]

/-- Witness for C3: a concrete failing environment propagates its exact
error through build. -/
theorem build_error_iff_reactor_error_witness :
    (Builder.build Builder.new ⟨5, some ⟨3⟩⟩).1 = .error ⟨3⟩ :=
  ((build_error_iff_reactor_error (U := Timer Reactor) Builder.new
    (fun t => t) ⟨5, some ⟨3⟩⟩).2 ⟨3⟩).mpr rfl

/-- C7: the clock configured on the builder is the clock actually
installed — Builder::new defaults to the real monotonic clock, the setter
stores the given clock in the returned builder, and on a successful
assembly the Timer handed to the transformation is seeded with the
builder's clock and the Runtime receives that clock. -/
theorem clock_configuration_installed :
    Builder.new.clock = Clock.new ∧
    (∀ (b : Builder) (c : Clock), (b.setClock c).clock = c) ∧
    (∀ {U V : Type} [Park U V] (self : Builder) (np : Timer Reactor → U)
      (w : World) (rt : Runtime U) (tok : V) (r : Reactor) (w1 : World),
      Reactor.new w = .ok (r, w1) →
      (Builder.build_with_park self np w).1 = .ok (rt, tok) →
        rt.executor.park = np (Timer.new_with_now r self.clock) ∧
        rt.clock = self.clock) := by
  refine ⟨rfl, fun b c => rfl, ?_⟩
  intro U V instP self np w rt tok r w1 hr h
  obtain ⟨r2, w2, hr2, hrt, htok⟩ := build_with_park_ok_inv h
  rw [hr] at hr2
  obtain ⟨rfl, rfl⟩ : r = r2 ∧ w1 = w2 := by
    injection hr2 with hp
    exact ⟨congrArg Prod.fst hp, congrArg Prod.snd hp⟩
  rw [hrt]
  exact ⟨rfl, rfl⟩

/-- Witness for C7: a deterministic clock set on the builder is the one
seeding the Timer and stored in the Runtime of a concrete assembly. -/
theorem clock_configuration_installed_witness :
    (Runtime.new2 (Reactor.handle ⟨0⟩)
        (Timer.new_with_now (⟨0⟩ : Reactor) ⟨7⟩).handle ⟨7⟩
        (CurrentThread.new_with_park
          (Timer.new_with_now (⟨0⟩ : Reactor) ⟨7⟩))).executor.park =
      Timer.new_with_now (⟨0⟩ : Reactor) (Builder.new.setClock ⟨7⟩).clock ∧
    (Runtime.new2 (Reactor.handle ⟨0⟩)
        (Timer.new_with_now (⟨0⟩ : Reactor) ⟨7⟩).handle ⟨7⟩
        (CurrentThread.new_with_park
          (Timer.new_with_now (⟨0⟩ : Reactor) ⟨7⟩))).clock =
      (Builder.new.setClock ⟨7⟩).clock :=
  clock_configuration_installed.2.2 (Builder.new.setClock ⟨7⟩) (fun t => t)
    ⟨0, none⟩ _ _ ⟨0⟩ ⟨1, none⟩ rfl rfl

/-- C8: the caller's transformation is applied exactly once, between the
Timer layer and the Executor layer — on success the executor wraps the
transformation's result on the Timer-wrapped reactor and the token is that
result's unpark, and the whole assembly depends on the transformation only
through its value at that single Timer argument. -/
theorem custom_layer_between_timer_and_executor {U V : Type} [Park U V]
    (self : Builder) (np : Timer Reactor → U) (w : World) (r : Reactor)
    (w1 : World) (h : Reactor.new w = .ok (r, w1)) :
    (∀ (rt : Runtime U) (tok : V),
      (Builder.build_with_park self np w).1 = .ok (rt, tok) →
        rt.executor = CurrentThread.new_with_park
          (np (Timer.new_with_now r self.clock.clone)) ∧
        tok = Park.unpark (np (Timer.new_with_now r self.clock.clone))) ∧
    (∀ np2 : Timer Reactor → U,
      np2 (Timer.new_with_now r self.clock.clone) =
        np (Timer.new_with_now r self.clock.clone) →
      Builder.build_with_park self np2 w = Builder.build_with_park self np w) := by
  constructor
  · intro rt tok hok
    obtain ⟨r2, w2, hr2, hrt, htok⟩ := build_with_park_ok_inv hok
    rw [h] at hr2
    obtain ⟨rfl, rfl⟩ : r = r2 ∧ w1 = w2 := by
      injection hr2 with hp
      exact ⟨congrArg Prod.fst hp, congrArg Prod.snd hp⟩
    rw [hrt, htok]
    exact ⟨rfl, rfl⟩
  · intro np2 hagree
    simp [Builder.build_with_park, h, hagree]

/-- Witness for C8: a concrete assembly whose executor wraps the
transformed timer and whose token is the transformed timer's unpark. -/
theorem custom_layer_between_timer_and_executor_witness :
    (CurrentThread.new_with_park
        (Timer.new_with_now (⟨0⟩ : Reactor) Clock.new) : CurrentThread (Timer Reactor)) =
      CurrentThread.new_with_park
        (Timer.new_with_now (⟨0⟩ : Reactor) Builder.new.clock.clone) ∧
    (⟨⟨0⟩⟩ : TimerUnpark ReactorUnpark) =
      Park.unpark (Timer.new_with_now (⟨0⟩ : Reactor) Builder.new.clock.clone) :=
  (custom_layer_between_timer_and_executor Builder.new (fun t => t)
      ⟨0, none⟩ ⟨0⟩ ⟨1, none⟩ rfl).1
    (Runtime.new2 (Reactor.handle ⟨0⟩)
      (Timer.new_with_now (⟨0⟩ : Reactor) Clock.new).handle Clock.new
      (CurrentThread.new_with_park (Timer.new_with_now (⟨0⟩ : Reactor) Clock.new)))
    ⟨⟨0⟩⟩ rfl

/-- C9: build is build_with_park at the identity transformation with the
wake token discarded — same error in the failure case, same runtime in the
success case, and the builder and environment are threaded identically. -/
theorem build_refines_build_with_park_identity (self : Builder) (w : World) :
    (∀ e, (Builder.build self w).1 = .error e ↔
      (Builder.build_with_park self (fun park => park) w).1 = .error e) ∧
    (∀ rt : Runtime (Timer Reactor), (Builder.build self w).1 = .ok rt ↔
      ∃ tok, (Builder.build_with_park self (fun park => park) w).1 =
        .ok (rt, tok)) ∧
    (Builder.build self w).2 =
      (Builder.build_with_park self (fun park => park) w).2 := by
  obtain ⟨nid, fail⟩ := w
  cases fail <;>
    simp [Builder.build, Builder.build_with_park, Reactor.new, Except.map]

/-- Witness for C9: at a concrete environment, build's runtime is the first
component of build_with_park's result and the threaded state agrees. -/
theorem build_refines_build_with_park_identity_witness :
    (Builder.build Builder.new ⟨0, none⟩).2 =
      (Builder.build_with_park Builder.new (fun park => park) ⟨0, none⟩).2 :=
  (build_refines_build_with_park_identity Builder.new ⟨0, none⟩).2.2

/-- C10: building leaves the builder's configuration unchanged (the stored
clock is only cloned), the environment returned on success is the one the
reactor creation produced, and two consecutive successful creations yield
distinct fresh reactors, so one builder can produce multiple independent
runtimes. -/
theorem builder_unchanged_and_fresh_reactor {U V : Type} [Park U V]
    (self : Builder) (np : Timer Reactor → U) (w : World) :
    ((Builder.build_with_park self np w).2.1 = self ∧
     (Builder.build self w).2.1 = self) ∧
    (∀ r1 w1, Reactor.new w = .ok (r1, w1) →
      (Builder.build_with_park self np w).2.2 = w1 ∧
      ∀ r2 w2, Reactor.new w1 = .ok (r2, w2) → r1 ≠ r2) := by
  constructor
  · obtain ⟨nid, fail⟩ := w
    cases fail <;>
      simp [Builder.build, Builder.build_with_park, Reactor.new, Except.map]
  · intro r1 w1 h1
    obtain ⟨nid, fail⟩ := w
    cases fail with
    | none =>
      simp [Reactor.new] at h1
      obtain ⟨rfl, rfl⟩ := h1
      refine ⟨by simp [Builder.build_with_park, Reactor.new], ?_⟩
      intro r2 w2 h2
      simp [Reactor.new] at h2
      obtain ⟨rfl, rfl⟩ := h2
      intro hEq
      injection hEq with hid
      omega
    | some e => simp [Reactor.new] at h1

/-- Witness for C10: a concrete builder is returned unchanged and two
consecutive assemblies create distinct reactors. -/
theorem builder_unchanged_and_fresh_reactor_witness :
    (Builder.build_with_park (U := Timer Reactor) Builder.new (fun t => t)
        ⟨0, none⟩).2.2 = ⟨1, none⟩ ∧
    (⟨0⟩ : Reactor) ≠ ⟨1⟩ :=
  ⟨((builder_unchanged_and_fresh_reactor Builder.new (fun t => t)
      ⟨0, none⟩).2 ⟨0⟩ ⟨1, none⟩ rfl).1,
   ((builder_unchanged_and_fresh_reactor (U := Timer Reactor) Builder.new
      (fun t => t) ⟨0, none⟩).2 ⟨0⟩ ⟨1, none⟩ rfl).2 ⟨1⟩ ⟨2, none⟩ rfl⟩

end CTRuntime
